import Mathlib

/-
  Shallow embedding of the MDnexa backend chat routes.

  Source of truth: the Express route handlers of the repository, chiefly the
  `POST /message` handler (authentication-optional chat endpoint with the
  five-question usage gate, the robust-Gemini generation call, and the
  session-persistence recovery flow) and the `POST /related` handler
  (related-questions endpoint with its empty-array fallback).

  Modelling conventions:
  * The relational store is the external collaborator of the spec: awaited
    row operations either succeed or surface an error value carrying a code,
    a message, and a details string; referential-integrity violations carry
    the Postgres code 23503 and name the `chat_sessions` table.  Each awaited
    write is one `DbOp`; an `Env.faults` schedule can additionally make any
    write fail with an arbitrary error shape (store outage, network reset),
    on top of the deterministic semantics `detOp`.
  * The remote generation capability is opaque: `Env.gen` is its outcome.
  * Executions are recorded as traces of events (`Ev`), one event per awaited
    write (with its success bit) plus one event for the remote generation
    call, so that counting and ordering properties can be stated.
  * Only the fields of the store that the verified properties depend on are
    modelled: the profile role column, the `question_usage` counter, the
    `chat_sessions` rows (owner and title) and the `chat_messages` rows.
-/

namespace MDnexa

/-- Message role, as normalised by the handler (`msg.role === 'user' ? 'user' : 'model'`). -/
inductive Role
  | user
  | model
deriving DecidableEq, Repr

/-- An incoming history turn as sent by the client (`{ role, text }`). -/
structure HMsg where
  role : String
  text : String
deriving DecidableEq, Repr

/-- A formatted history turn as passed to the generation client. -/
structure FMsg where
  role : Role
  text : String
deriving DecidableEq, Repr

/-- `history.map(msg => ({ role: msg.role === 'user' ? 'user' : 'model', parts: [{ text: msg.text }] }))`. -/
def fmtMsg (m : HMsg) : FMsg :=
  ⟨if m.role = "user" then Role.user else Role.model, m.text⟩

/-- The `while (formattedHistory.length > 0 && formattedHistory[0].role === 'model') formattedHistory.shift()` loop. -/
def trimLeadingModel : List FMsg → List FMsg
  | [] => []
  | m :: rest => if m.role = Role.model then trimLeadingModel rest else m :: rest

/-- The shape of a surfaced store error, as inspected by the recovery code:
`dbError.code`, whether `dbError.message` contains `foreign key`, and whether
`dbError.details` contains `is not present in table "chat_sessions"`. -/
structure DbError where
  code : Option String
  messageHasForeignKey : Bool
  detailsNameChatSessions : Bool
deriving DecidableEq, Repr

/-- The recovery trigger test of the handler:
`dbError.code === '23503' || dbError.message?.includes('foreign key') || dbError.details?.includes('is not present in table "chat_sessions"')`. -/
def isFkError (e : DbError) : Bool :=
  e.code == some "23503" || e.messageHasForeignKey || e.detailsNameChatSessions

/-- The referential-integrity violation surfaced by the store when a
`chat_messages` insert references a missing `chat_sessions` row. -/
def fkViolation : DbError := ⟨some "23503", true, true⟩

/-- The duplicate-key violation surfaced by the store when inserting a row
whose primary key already exists. -/
def dupKey : DbError := ⟨some "23505", false, false⟩

/-- A `chat_sessions` row (the columns the verified properties depend on). -/
structure SessionRow where
  userId : String
  title : String
deriving DecidableEq, Repr

/-- A `chat_messages` row. -/
structure MsgRow where
  sessionId : String
  userId : String
  role : Role
  content : String
deriving DecidableEq, Repr

/-- The relational store: profile role by user id, `question_usage` count by
user id, `chat_sessions` by session id, and `chat_messages` in insertion order. -/
structure Store where
  profiles : String → Option String
  usage : String → Option Nat
  sessions : String → Option SessionRow
  messages : List MsgRow

/-- One awaited write against the store. -/
inductive DbOp
  | usageInsert (uid : String)
  | usageUpdate (uid : String) (n : Nat)
  | msgInsert (sid uid : String) (role : Role) (content : String)
  | sessionInsert (sid uid title : String)
  | sessionTouch (sid : String)
  | titleUpdate (sid title : String)
deriving DecidableEq, Repr

/-- Does the write touch the `question_usage` table? -/
def DbOp.isUsageOp : DbOp → Bool
  | .usageInsert _ => true
  | .usageUpdate _ _ => true
  | _ => false

/-- Is the write a `chat_sessions` insert (a session-creation call)? -/
def DbOp.isCreateOp : DbOp → Bool
  | .sessionInsert _ _ _ => true
  | _ => false

/-- Is the write a user-role `chat_messages` insert? -/
def DbOp.isUserMsgOp : DbOp → Bool
  | .msgInsert _ _ Role.user _ => true
  | _ => false

/-- Is the write a model-role `chat_messages` insert? -/
def DbOp.isModelMsgOp : DbOp → Bool
  | .msgInsert _ _ Role.model _ => true
  | _ => false

/-- Deterministic store semantics of one write: the collaborator contract of
the spec (inserts append, a `chat_messages` insert with a missing parent
session surfaces `fkViolation`, duplicate-key inserts surface `dupKey`,
updates by predicate touch only matching rows). -/
def detOp (s : Store) : DbOp → Except DbError Store
  | .usageInsert uid =>
      if (s.usage uid).isSome then .error dupKey
      else .ok { s with usage := fun x => if x = uid then some 1 else s.usage x }
  | .usageUpdate uid n =>
      .ok { s with usage := fun x => if x = uid then (s.usage x).map (fun _ => n) else s.usage x }
  | .msgInsert sid uid role content =>
      if (s.sessions sid).isSome then
        .ok { s with messages := s.messages ++ [⟨sid, uid, role, content⟩] }
      else .error fkViolation
  | .sessionInsert sid uid title =>
      if (s.sessions sid).isSome then .error dupKey
      else .ok { s with sessions := fun x => if x = sid then some ⟨uid, title⟩ else s.sessions x }
  | .sessionTouch _ => .ok s
  | .titleUpdate sid title =>
      .ok { s with sessions := fun x => if x = sid then (s.sessions x).map (fun r => ⟨r.userId, title⟩) else s.sessions x }

/-- One recorded event of an execution: an awaited write with its success bit,
or the remote generation call. -/
inductive Ev
  | db (op : DbOp) (ok : Bool)
  | gen
deriving DecidableEq, Repr

/-- Lift a write predicate to events (generation events never match). -/
def evOf (q : DbOp → Bool) : Ev → Bool
  | .db op _ => q op
  | .gen => false

/-- A successfully written user-role `chat_messages` row. -/
def Ev.isUserRowWrite : Ev → Bool
  | .db op true => op.isUserMsgOp
  | _ => false

/-- A successfully written model-role `chat_messages` row. -/
def Ev.isModelRowWrite : Ev → Bool
  | .db op true => op.isModelMsgOp
  | _ => false

/-- Execution state threaded through one request: the store, the index of the
next awaited write (consulted by the fault schedule), and the event trace. -/
structure World where
  store : Store
  k : Nat
  tr : List Ev

/-- Fresh execution state at the start of one request. -/
def World.init (s : Store) : World := ⟨s, 0, []⟩

/-- Outcome of the remote generation call (`robustGemini.generateMessage`):
the generated text and the identifier of the model that produced it. -/
structure GenOut where
  text : String
  model : String
deriving DecidableEq, Repr

/-- The external environment of one request: the injected fault schedule of
the store (by write index), the outcome of the remote generation call, which
role strings claim elevated access, and the formatted current timestamp. -/
structure Env where
  faults : Nat → Option DbError
  gen : Except String GenOut
  elev : String → Bool
  nowTitle : String

/-- The store behaves per its collaborator contract: no injected faults. -/
def NoFaults (env : Env) : Prop := ∀ k, env.faults k = none

/-- Run one awaited write: an injected fault fails it with the injected
shape; otherwise the deterministic semantics `detOp` applies.  The attempt is
recorded in the trace either way. -/
def runOp (env : Env) (w : World) (op : DbOp) : Option DbError × World :=
  match env.faults w.k with
  | some e => (some e, ⟨w.store, w.k + 1, w.tr ++ [.db op false]⟩)
  | none =>
      match detOp w.store op with
      | .ok s2 => (none, ⟨s2, w.k + 1, w.tr ++ [.db op true]⟩)
      | .error e => (some e, ⟨w.store, w.k + 1, w.tr ++ [.db op false]⟩)

/-- Run a sequence of awaited writes, stopping at the first failure (the
first rejected `await` throws out of the enclosing async function). -/
def runOps (env : Env) (w : World) : List DbOp → Option DbError × World
  | [] => (none, w)
  | op :: rest =>
      match runOp env w op with
      | (none, w2) => runOps env w2 rest
      | (some e, w2) => (some e, w2)

/-- The body of `persistMessages`: insert the user message row, insert the
model message row, touch the parent session, in that order. -/
def persistOps (sid uid userText modelText : String) : List DbOp :=
  [.msgInsert sid uid Role.user userText,
   .msgInsert sid uid Role.model modelText,
   .sessionTouch sid]

/-- The persistence recovery flow of the `POST /message` handler: try
`persistMessages`; on a referential-integrity-shaped failure create the
missing `chat_sessions` row just in time (caller-supplied id, owner identity,
timestamp title) and retry `persistMessages` exactly once; any other failure,
or any failure inside the recovery, leaves the turn unpersisted. -/
def persistTurn (env : Env) (w : World) (sid uid userText modelText : String) : Bool × World :=
  match runOps env w (persistOps sid uid userText modelText) with
  | (none, w1) => (true, w1)
  | (some e, w1) =>
      if isFkError e then
        match runOp env w1 (.sessionInsert sid uid env.nowTitle) with
        | (none, w2) =>
            match runOps env w2 (persistOps sid uid userText modelText) with
            | (none, w3) => (true, w3)
            | (some _, w3) => (false, w3)
        | (some _, w2) => (false, w2)
      else (false, w1)

/-- An authenticated identity as seen by the handler: id plus the three
role signals carried by the auth user object. -/
structure AuthUser where
  id : String
  role : Option String
  userMetaRole : Option String
  appMetaRole : Option String

/-- `[profile?.role, user.role, user.user_metadata?.role, user.app_metadata?.role].filter(Boolean)`:
all role signals, with absent and empty (falsy) entries removed. -/
def allRoles (profileRole : Option String) (u : AuthUser) : List String :=
  ([profileRole, u.role, u.userMetaRole, u.appMetaRole].filterMap id).filter (fun r => r != "")

/-- Modelled from the spec: `hasUnlimitedAccess` lives in
`../utils/accessControl`, which is not among the source files; per the spec
the privilege flag is derived from the union of all known role signals and
any one source claiming elevated access is sufficient. -/
def hasUnlimitedAccess (elev : String → Bool) (roles : List String) : Bool :=
  roles.any elev

/-- The caller-visible outcome of `POST /message`: the 200 payload with the
generated text and the winning model, the 403 `LIMIT_REACHED` rejection, or
the 500 error reached through the outer catch. -/
inductive Response
  | ok (text model : String)
  | limitReached
  | serverError
deriving DecidableEq, Repr

/-- The request body of `POST /message` (the fields the verified properties
depend on). -/
structure Body where
  message : String
  history : List HMsg
  sessionId : Option String

/-- The usage gate of the handler (lines guarding the generation call): a
privileged identity passes untouched; otherwise the `question_usage` count is
read (absence meaning 0), a count of at least 5 is rejected with
`LIMIT_REACHED`, and below the threshold the counter is written (insert at 1
if absent, else update to count+1) before the request proceeds. -/
def runGate (env : Env) (w : World) (u : AuthUser) : Except (Response × World) World :=
  let roles := allRoles (w.store.profiles u.id) u
  if hasUnlimitedAccess env.elev roles then .ok w
  else
    let usage := w.store.usage u.id
    let currentCount := usage.getD 0
    if 5 ≤ currentCount then .error (.limitReached, w)
    else
      match runOp env w (if usage.isNone then .usageInsert u.id else .usageUpdate u.id (currentCount + 1)) with
      | (none, w1) => .ok w1
      | (some _, w1) => .error (.serverError, w1)

/-- The part of the handler after a successful generation call: if a user and
a session id are present, run the persistence recovery flow; if it succeeded
and the trimmed history is empty, additionally set the session title to the
formatted timestamp (this last write is awaited outside the persistence
try/catch, so its failure propagates to the outer catch). -/
def afterGen (env : Env) (w : World) (uo : Option AuthUser) (sidO : Option String)
    (userText : String) (out : GenOut) (fh : List FMsg) : Response × World :=
  match uo, sidO with
  | some u, some sid =>
      match persistTurn env w sid u.id userText out.text with
      | (true, w1) =>
          if fh.isEmpty then
            match runOp env w1 (.titleUpdate sid env.nowTitle) with
            | (none, w2) => (.ok out.text out.model, w2)
            | (some _, w2) => (.serverError, w2)
          else (.ok out.text out.model, w1)
      | (false, w1) => (.ok out.text out.model, w1)
  | _, _ => (.ok out.text out.model, w)

/-- The `POST /message` handler: optional usage gate, history trimming,
remote generation, best-effort persistence with just-in-time session
recovery, first-turn timestamp titling, and the final response. -/
def handleMessage (env : Env) (store : Store) (uo : Option AuthUser) (body : Body) : Response × World :=
  let w0 := World.init store
  match (match uo with
         | none => Except.ok w0
         | some u => runGate env w0 u) with
  | .error rw => rw
  | .ok w1 =>
      let fh := trimLeadingModel (body.history.map fmtMsg)
      let w2 : World := ⟨w1.store, w1.k, w1.tr ++ [Ev.gen]⟩
      match env.gen with
      | .error _ => (.serverError, w2)
      | .ok out => afterGen env w2 uo body.sessionId body.message out fh

/-- Run `n` sequential `POST /message` requests from the same identity with
the same body, threading the store. -/
def iterStore (env : Env) (u : AuthUser) (body : Body) : Nat → Store → Store
  | 0, s => s
  | n + 1, s => (handleMessage env (iterStore env u body n s) (some u) body).2.store

/-- The caller-visible outcome of `POST /related`. -/
inductive RelResponse
  | ok (payload : List String)
  | err (status : Nat)
deriving DecidableEq, Repr

/-- The `POST /related` handler: generate, `JSON.parse` the generated text
and return it; any failure inside the try (generation error or unparseable
payload) falls back to a 200 response carrying an empty array.  `parse`
models `JSON.parse` restricted to the payloads the endpoint requests
(a JSON array of strings); `none` means the text is not parseable JSON. -/
def relatedHandler (gen : Except String String) (parse : String → Option (List String)) : RelResponse :=
  match gen with
  | .error _ => .ok []
  | .ok text =>
      match parse text with
      | some v => .ok v
      | none => .ok []

/-- Within-turn write ordering: in every prefix of the trace, the number of
successfully written model-message rows never exceeds the number of
successfully written user-message rows (so a model row is never inserted
before a user row). -/
def Balanced (tr : List Ev) : Prop :=
  ∀ n, (tr.take n).countP Ev.isModelRowWrite ≤ (tr.take n).countP Ev.isUserRowWrite

/-! Sample concrete inputs used by the witness and counterexample theorems. -/

/-- An authenticated identity whose auth-user role claims elevated access. -/
def adminUser : AuthUser := ⟨"u1", some "admin", none, none⟩

/-- A fault-free environment whose generation call fails. -/
def genFailEnv : Env :=
  ⟨fun _ => none, .error "boom", fun r => r == "admin", "Nov 5, 10:00 AM"⟩

/-- An environment whose very first store write fails with a shape that is
not a referential-integrity violation. -/
def persistFailEnv : Env :=
  ⟨fun k => if k = 0 then some ⟨none, false, false⟩ else none,
   .ok ⟨"answer", "model-a"⟩, fun r => r == "admin", "Nov 5, 10:00 AM"⟩

/-- An environment whose fourth store write (the first-turn timestamp-title
update, after the three persistence writes) fails. -/
def titleFailEnv : Env :=
  ⟨fun k => if k = 3 then some ⟨none, false, false⟩ else none,
   .ok ⟨"answer", "model-a"⟩, fun r => r == "admin", "Nov 5, 10:00 AM"⟩

/-- A store holding the single session `s1` owned by `u1`. -/
def storeWithSession : Store :=
  ⟨fun _ => none, fun _ => none,
   fun x => if x = "s1" then some ⟨"u1", "old title"⟩ else none, []⟩

/-- A request body carrying a session id and no history. -/
def sessionBody : Body := ⟨"hi", [], some "s1"⟩

/-- A request body whose history is a single model-role welcome turn. -/
def welcomeBody : Body := ⟨"hi", [⟨"model", "welcome"⟩], some "s1"⟩

/-- A fault-free environment with a succeeding generation call. -/
def noFaultEnv : Env :=
  ⟨fun _ => none, .ok ⟨"answer", "model-a"⟩, fun r => r == "admin", "Nov 5, 10:00 AM"⟩

/-- An empty store. -/
def baseStore : Store := ⟨fun _ => none, fun _ => none, fun _ => none, []⟩

/-- A store in which identity `u1` has used all five free questions. -/
def storeAtLimit : Store :=
  ⟨fun _ => none, fun x => if x = "u1" then some 5 else none, fun _ => none, []⟩

/-- An authenticated identity with no role signals. -/
def plainUser : AuthUser := ⟨"u1", none, none, none⟩

/-- A request body with no history and no session id. -/
def sampleBody : Body := ⟨"hi", [], none⟩

/-! ## History trimming -/

/-- The trimming loop drops exactly a prefix of model-role turns and keeps
the remaining turns unchanged; the result is empty or starts on a user turn. -/
theorem trim_spec (l : List FMsg) :
    ∃ d, l = d ++ trimLeadingModel l ∧ (∀ m ∈ d, m.role = Role.model) ∧
      (trimLeadingModel l = [] ∨
       ∃ m rest, trimLeadingModel l = m :: rest ∧ m.role = Role.user) := by
  induction l with
  | nil => exact ⟨[], rfl, by simp, Or.inl rfl⟩
  | cons m rest ih =>
    by_cases h : m.role = Role.model
    · obtain ⟨d, hd, hall, hhead⟩ := ih
      refine ⟨m :: d, ?_, ?_, ?_⟩
      · simpa [trimLeadingModel, h] using hd
      · intro x hx
        rcases List.mem_cons.mp hx with hx | hx
        · simpa [hx] using h
        · exact hall x hx
      · simpa [trimLeadingModel, h] using hhead
    · refine ⟨[], by simp [trimLeadingModel, h], by simp, Or.inr ⟨m, rest, by simp [trimLeadingModel, h], ?_⟩⟩
      cases hr : m.role with
      | user => rfl
      | model => exact absurd hr h

/-- Claim C6: for every incoming conversation history, the formatted history
passed to generation has all leading non-user turns trimmed, the remaining
turns are preserved in their original order (the result is a suffix of the
formatted input), and the result is either empty or starts with a user-role
turn. -/
theorem spec_c6 (history : List HMsg) :
    ∃ d, history.map fmtMsg = d ++ trimLeadingModel (history.map fmtMsg) ∧
      (∀ m ∈ d, m.role = Role.model) ∧
      (trimLeadingModel (history.map fmtMsg) = [] ∨
       ∃ m rest, trimLeadingModel (history.map fmtMsg) = m :: rest ∧ m.role = Role.user) :=
  trim_spec (history.map fmtMsg)

/-- Witness for C6 at a history starting with a model welcome turn. -/
theorem spec_c6_witness :
    ∃ d, [HMsg.mk "model" "welcome", HMsg.mk "user" "q"].map fmtMsg =
        d ++ trimLeadingModel ([HMsg.mk "model" "welcome", HMsg.mk "user" "q"].map fmtMsg) ∧
      (∀ m ∈ d, m.role = Role.model) ∧
      (trimLeadingModel ([HMsg.mk "model" "welcome", HMsg.mk "user" "q"].map fmtMsg) = [] ∨
       ∃ m rest, trimLeadingModel ([HMsg.mk "model" "welcome", HMsg.mk "user" "q"].map fmtMsg) =
         m :: rest ∧ m.role = Role.user) :=
  spec_c6 [HMsg.mk "model" "welcome", HMsg.mk "user" "q"]

/-! ## Related-questions endpoint -/

/-- Claim C10: every failure of the related-questions endpoint (generation
error, or a generated payload that is not parseable JSON) yields a successful
response carrying an empty array, never an error status; a backend failure is
indistinguishable from a parsed empty list of related questions, and every
outcome of the handler is a success response. -/
theorem spec_c10 (parse : String → Option (List String)) :
    (∀ e, relatedHandler (.error e) parse = .ok []) ∧
    (∀ t, parse t = none → relatedHandler (.ok t) parse = .ok []) ∧
    (∀ t e, parse t = some [] → relatedHandler (.ok t) parse = relatedHandler (.error e) parse) ∧
    (∀ g, ∃ v, relatedHandler g parse = .ok v) := by
  refine ⟨fun e => rfl,
          fun t ht => by simp [relatedHandler, ht],
          fun t e ht => by simp [relatedHandler, ht],
          fun g => ?_⟩
  cases g with
  | error e => exact ⟨[], rfl⟩
  | ok t =>
    cases hp : parse t with
    | none => exact ⟨[], by simp [relatedHandler, hp]⟩
    | some v => exact ⟨v, by simp [relatedHandler, hp]⟩

/-- Witness for C10 at a concrete parse function: a generation error and an
unparseable payload both produce the empty-array success response, equal to
the response for a parsed empty array. -/
theorem spec_c10_witness :
    relatedHandler (.error "boom") (fun t => if t = "[]" then some [] else none) = .ok [] ∧
    relatedHandler (.ok "not json") (fun t => if t = "[]" then some [] else none) = .ok [] ∧
    relatedHandler (.ok "[]") (fun t => if t = "[]" then some [] else none) =
      relatedHandler (.error "boom") (fun t => if t = "[]" then some [] else none) := by
  obtain ⟨h1, h2, h3, _⟩ := spec_c10 (fun t => if t = "[]" then some [] else none)
  exact ⟨h1 "boom", h2 "not json" (by simp), h3 "[]" "boom" (by simp)⟩

/-! ## Usage gate -/

/-- Claim C3: a non-privileged authenticated identity whose usage count is at
least 5 is rejected with `LIMIT_REACHED` and the request leaves the initial
execution state untouched: the store (hence the usage counter) is unchanged
and the trace is empty, so in particular no remote generation call was made. -/
theorem spec_c3 (env : Env) (store : Store) (u : AuthUser) (body : Body)
    (hNU : hasUnlimitedAccess env.elev (allRoles (store.profiles u.id) u) = false)
    (hcnt : 5 ≤ (store.usage u.id).getD 0) :
    handleMessage env store (some u) body = (Response.limitReached, World.init store) := by
  unfold handleMessage runGate
  simp [World.init, hNU, hcnt]

/-- Witness for C3: identity `u1` with five used questions and no role
signals is rejected and the execution state is the untouched initial one. -/
theorem spec_c3_witness :
    handleMessage noFaultEnv storeAtLimit (some plainUser) sampleBody =
      (Response.limitReached, World.init storeAtLimit) :=
  spec_c3 noFaultEnv storeAtLimit plainUser sampleBody rfl (by decide)

/-! ## Trace and frame helper lemmas -/

/-- One awaited write appends exactly one event for its own operation. -/
theorem runOp_tr_eq (env : Env) (w : World) (op : DbOp) :
    ∃ b, (runOp env w op).2.tr = w.tr ++ [Ev.db op b] := by
  unfold runOp
  rcases env.faults w.k with _ | e
  · rcases detOp w.store op with e2 | s2
    · exact ⟨false, rfl⟩
    · exact ⟨true, rfl⟩
  · exact ⟨false, rfl⟩

/-- Counting writes matching an operation predicate across one awaited write. -/
theorem countP_evOf_runOp (q : DbOp → Bool) (env : Env) (w : World) (op : DbOp) :
    ((runOp env w op).2.tr).countP (evOf q) =
      w.tr.countP (evOf q) + (if q op then 1 else 0) := by
  obtain ⟨b, hb⟩ := runOp_tr_eq env w op
  rw [hb, List.countP_append]
  simp [evOf, List.countP_cons]

/-- A write sequence only appends to the trace. -/
theorem runOps_tr_prefix (env : Env) (ops : List DbOp) : ∀ w : World,
    ∃ d, (runOps env w ops).2.tr = w.tr ++ d := by
  induction ops with
  | nil => exact fun w => ⟨[], by simp [runOps]⟩
  | cons op rest ih =>
    intro w
    unfold runOps
    rcases hr : runOp env w op with ⟨res, w2⟩
    obtain ⟨b, hb⟩ := runOp_tr_eq env w op
    rw [hr] at hb
    have hb2 : w2.tr = w.tr ++ [Ev.db op b] := hb
    cases res with
    | none =>
      obtain ⟨d, hd⟩ := ih w2
      exact ⟨Ev.db op b :: d, by rw [hd, hb2]; simp⟩
    | some e => exact ⟨[Ev.db op b], hb2⟩

/-- Counting writes matching an operation predicate none of whose operations
appear in the sequence: the count is unchanged. -/
theorem countP_evOf_runOps_zero (q : DbOp → Bool) (env : Env) (ops : List DbOp)
    (h : ∀ op ∈ ops, q op = false) : ∀ w : World,
    ((runOps env w ops).2.tr).countP (evOf q) = w.tr.countP (evOf q) := by
  induction ops with
  | nil => intro w; simp [runOps]
  | cons op rest ih =>
    intro w
    have hop : q op = false := h op (List.mem_cons_self op rest)
    have hco := countP_evOf_runOp q env w op
    simp [hop] at hco
    unfold runOps
    rcases hr : runOp env w op with ⟨res, w2⟩
    rw [hr] at hco
    cases res with
    | none =>
      rw [ih (fun o ho => h o (List.mem_cons_of_mem op ho)) w2]
      exact hco
    | some e => exact hco

/-- The deterministic semantics never writes the `profiles` table. -/
theorem detOp_profiles {s s2 : Store} {op : DbOp} (h : detOp s op = .ok s2) :
    s2.profiles = s.profiles := by
  cases op <;> simp only [detOp] at h <;> (try split at h) <;>
    (first
      | (injection h with h2; rw [← h2])
      | simp at h)

/-- The deterministic semantics of a non-usage write never touches the
`question_usage` table. -/
theorem detOp_usage {s s2 : Store} {op : DbOp} (hq : op.isUsageOp = false)
    (h : detOp s op = .ok s2) : s2.usage = s.usage := by
  cases op with
  | usageInsert uid => exact absurd hq (by simp [DbOp.isUsageOp])
  | usageUpdate uid n => exact absurd hq (by simp [DbOp.isUsageOp])
  | msgInsert sid uid role content =>
    simp only [detOp] at h
    split at h
    · injection h with h2; rw [← h2]
    · simp at h
  | sessionInsert sid uid title =>
    simp only [detOp] at h
    split at h
    · simp at h
    · injection h with h2; rw [← h2]
  | sessionTouch sid =>
    simp only [detOp] at h
    injection h with h2; rw [← h2]
  | titleUpdate sid title =>
    simp only [detOp] at h
    injection h with h2; rw [← h2]

/-- One awaited write preserves the `profiles` table. -/
theorem runOp_profiles (env : Env) (w : World) (op : DbOp) :
    (runOp env w op).2.store.profiles = w.store.profiles := by
  unfold runOp
  rcases env.faults w.k with _ | e
  · rcases hd : detOp w.store op with e2 | s2
    · rfl
    · exact detOp_profiles hd
  · rfl

/-- One awaited non-usage write preserves the `question_usage` table. -/
theorem runOp_usage (env : Env) (w : World) (op : DbOp) (hq : op.isUsageOp = false) :
    (runOp env w op).2.store.usage = w.store.usage := by
  unfold runOp
  rcases env.faults w.k with _ | e
  · rcases hd : detOp w.store op with e2 | s2
    · rfl
    · exact detOp_usage hq hd
  · rfl

/-- A write sequence preserves the `profiles` table. -/
theorem runOps_profiles (env : Env) (ops : List DbOp) : ∀ w : World,
    (runOps env w ops).2.store.profiles = w.store.profiles := by
  induction ops with
  | nil => intro w; rfl
  | cons op rest ih =>
    intro w
    unfold runOps
    rcases hr : runOp env w op with ⟨res, w2⟩
    have hp : w2.store.profiles = w.store.profiles := by
      have := runOp_profiles env w op
      rw [hr] at this
      exact this
    cases res with
    | none => rw [ih w2]; exact hp
    | some e => exact hp

/-- A non-usage write sequence preserves the `question_usage` table. -/
theorem runOps_usage (env : Env) (ops : List DbOp)
    (h : ∀ op ∈ ops, op.isUsageOp = false) : ∀ w : World,
    (runOps env w ops).2.store.usage = w.store.usage := by
  induction ops with
  | nil => intro w; rfl
  | cons op rest ih =>
    intro w
    unfold runOps
    rcases hr : runOp env w op with ⟨res, w2⟩
    have hp : w2.store.usage = w.store.usage := by
      have := runOp_usage env w op (h op (List.mem_cons_self op rest))
      rw [hr] at this
      exact this
    cases res with
    | none => rw [ih (fun o ho => h o (List.mem_cons_of_mem op ho)) w2]; exact hp
    | some e => exact hp

/-- None of the `persistMessages` writes touches `question_usage`. -/
theorem persistOps_nonusage (sid uid m a : String) :
    ∀ op ∈ persistOps sid uid m a, op.isUsageOp = false := by
  intro op hop
  simp only [persistOps, List.mem_cons, List.mem_singleton] at hop
  rcases hop with h | h | h | h <;> (first | (subst h; rfl) | exact absurd h (by simp))

/-- The five possible executions of the persistence recovery flow: initial
success; initial failure of a non-referential-integrity shape; recovery
attempted but the session creation failed; recovery with a successful retry;
recovery whose retry failed again (no further retry exists). -/
theorem persistTurn_rcases (env : Env) (w : World) (sid uid m a : String) :
    (∃ w1, runOps env w (persistOps sid uid m a) = (none, w1) ∧
       persistTurn env w sid uid m a = (true, w1)) ∨
    (∃ e w1, runOps env w (persistOps sid uid m a) = (some e, w1) ∧ isFkError e = false ∧
       persistTurn env w sid uid m a = (false, w1)) ∨
    (∃ e w1 e2 w2, runOps env w (persistOps sid uid m a) = (some e, w1) ∧ isFkError e = true ∧
       runOp env w1 (.sessionInsert sid uid env.nowTitle) = (some e2, w2) ∧
       persistTurn env w sid uid m a = (false, w2)) ∨
    (∃ e w1 w2 w3, runOps env w (persistOps sid uid m a) = (some e, w1) ∧ isFkError e = true ∧
       runOp env w1 (.sessionInsert sid uid env.nowTitle) = (none, w2) ∧
       runOps env w2 (persistOps sid uid m a) = (none, w3) ∧
       persistTurn env w sid uid m a = (true, w3)) ∨
    (∃ e w1 w2 e3 w3, runOps env w (persistOps sid uid m a) = (some e, w1) ∧ isFkError e = true ∧
       runOp env w1 (.sessionInsert sid uid env.nowTitle) = (none, w2) ∧
       runOps env w2 (persistOps sid uid m a) = (some e3, w3) ∧
       persistTurn env w sid uid m a = (false, w3)) := by
  rcases h1 : runOps env w (persistOps sid uid m a) with ⟨r1, w1⟩
  cases r1 with
  | none =>
    exact Or.inl ⟨w1, rfl, by unfold persistTurn; simp only [h1]⟩
  | some e =>
    cases hf : isFkError e with
    | false =>
      exact Or.inr (Or.inl ⟨e, w1, rfl, hf, by unfold persistTurn; simp [h1, hf]⟩)
    | true =>
      rcases h2 : runOp env w1 (.sessionInsert sid uid env.nowTitle) with ⟨r2, w2⟩
      cases r2 with
      | some e2 =>
        exact Or.inr (Or.inr (Or.inl ⟨e, w1, e2, w2, rfl, hf,
          h2, by unfold persistTurn; simp [h1, hf, h2]⟩))
      | none =>
        rcases h3 : runOps env w2 (persistOps sid uid m a) with ⟨r3, w3⟩
        cases r3 with
        | none =>
          exact Or.inr (Or.inr (Or.inr (Or.inl ⟨e, w1, w2, w3, rfl, hf,
            h2, h3, by unfold persistTurn; simp [h1, hf, h2, h3]⟩)))
        | some e3 =>
          exact Or.inr (Or.inr (Or.inr (Or.inr ⟨e, w1, w2, e3, w3, rfl, hf,
            h2, h3, by unfold persistTurn; simp [h1, hf, h2, h3]⟩)))

/-- The persistence recovery flow preserves the `question_usage` table. -/
theorem persistTurn_usage (env : Env) (w : World) (sid uid m a : String) :
    (persistTurn env w sid uid m a).2.store.usage = w.store.usage := by
  have hops : ∀ wx : World, (runOps env wx (persistOps sid uid m a)).2.store.usage = wx.store.usage :=
    runOps_usage env _ (persistOps_nonusage sid uid m a)
  have hcreate : ∀ wx : World, (runOp env wx (.sessionInsert sid uid env.nowTitle)).2.store.usage = wx.store.usage :=
    fun wx => runOp_usage env wx _ rfl
  rcases persistTurn_rcases env w sid uid m a with
      ⟨w1, h1, hres⟩ | ⟨e, w1, h1, hf, hres⟩ | ⟨e, w1, e2, w2, h1, hf, h2, hres⟩ |
      ⟨e, w1, w2, w3, h1, hf, h2, h3, hres⟩ | ⟨e, w1, w2, e3, w3, h1, hf, h2, h3, hres⟩ <;>
    rw [hres]
  · have := hops w; rw [h1] at this; exact this
  · have := hops w; rw [h1] at this; exact this
  · have ha := hops w; rw [h1] at ha
    have hb := hcreate w1; rw [h2] at hb
    exact hb.trans ha
  · have ha := hops w; rw [h1] at ha
    have hb := hcreate w1; rw [h2] at hb
    have hc := hops w2; rw [h3] at hc
    exact (hc.trans hb).trans ha
  · have ha := hops w; rw [h1] at ha
    have hb := hcreate w1; rw [h2] at hb
    have hc := hops w2; rw [h3] at hc
    exact (hc.trans hb).trans ha

/-- The persistence recovery flow preserves the `profiles` table. -/
theorem persistTurn_profiles (env : Env) (w : World) (sid uid m a : String) :
    (persistTurn env w sid uid m a).2.store.profiles = w.store.profiles := by
  have hops : ∀ wx : World, (runOps env wx (persistOps sid uid m a)).2.store.profiles = wx.store.profiles :=
    runOps_profiles env _
  have hcreate : ∀ wx : World, (runOp env wx (.sessionInsert sid uid env.nowTitle)).2.store.profiles = wx.store.profiles :=
    fun wx => runOp_profiles env wx _
  rcases persistTurn_rcases env w sid uid m a with
      ⟨w1, h1, hres⟩ | ⟨e, w1, h1, hf, hres⟩ | ⟨e, w1, e2, w2, h1, hf, h2, hres⟩ |
      ⟨e, w1, w2, w3, h1, hf, h2, h3, hres⟩ | ⟨e, w1, w2, e3, w3, h1, hf, h2, h3, hres⟩ <;>
    rw [hres]
  · have := hops w; rw [h1] at this; exact this
  · have := hops w; rw [h1] at this; exact this
  · have ha := hops w; rw [h1] at ha
    have hb := hcreate w1; rw [h2] at hb
    exact hb.trans ha
  · have ha := hops w; rw [h1] at ha
    have hb := hcreate w1; rw [h2] at hb
    have hc := hops w2; rw [h3] at hc
    exact (hc.trans hb).trans ha
  · have ha := hops w; rw [h1] at ha
    have hb := hcreate w1; rw [h2] at hb
    have hc := hops w2; rw [h3] at hc
    exact (hc.trans hb).trans ha

/-- The `question_usage` event count is unchanged by the recovery flow. -/
theorem persistTurn_usageCount (env : Env) (w : World) (sid uid m a : String) :
    ((persistTurn env w sid uid m a).2.tr).countP (evOf DbOp.isUsageOp) =
      w.tr.countP (evOf DbOp.isUsageOp) := by
  have hops : ∀ wx : World, ((runOps env wx (persistOps sid uid m a)).2.tr).countP (evOf DbOp.isUsageOp) =
      wx.tr.countP (evOf DbOp.isUsageOp) :=
    countP_evOf_runOps_zero DbOp.isUsageOp env _ (persistOps_nonusage sid uid m a)
  have hcreate : ∀ wx : World, ((runOp env wx (.sessionInsert sid uid env.nowTitle)).2.tr).countP (evOf DbOp.isUsageOp) =
      wx.tr.countP (evOf DbOp.isUsageOp) := by
    intro wx
    have := countP_evOf_runOp DbOp.isUsageOp env wx (.sessionInsert sid uid env.nowTitle)
    simpa using this
  rcases persistTurn_rcases env w sid uid m a with
      ⟨w1, h1, hres⟩ | ⟨e, w1, h1, hf, hres⟩ | ⟨e, w1, e2, w2, h1, hf, h2, hres⟩ |
      ⟨e, w1, w2, w3, h1, hf, h2, h3, hres⟩ | ⟨e, w1, w2, e3, w3, h1, hf, h2, h3, hres⟩ <;>
    rw [hres]
  · have := hops w; rw [h1] at this; exact this
  · have := hops w; rw [h1] at this; exact this
  · have ha := hops w; rw [h1] at ha
    have hb := hcreate w1; rw [h2] at hb
    exact hb.trans ha
  · have ha := hops w; rw [h1] at ha
    have hb := hcreate w1; rw [h2] at hb
    have hc := hops w2; rw [h3] at hc
    exact (hc.trans hb).trans ha
  · have ha := hops w; rw [h1] at ha
    have hb := hcreate w1; rw [h2] at hb
    have hc := hops w2; rw [h3] at hc
    exact (hc.trans hb).trans ha

/-- The persistence recovery flow only appends to the trace. -/
theorem persistTurn_tr_prefix (env : Env) (w : World) (sid uid m a : String) :
    ∃ d, (persistTurn env w sid uid m a).2.tr = w.tr ++ d := by
  rcases persistTurn_rcases env w sid uid m a with
      ⟨w1, h1, hres⟩ | ⟨e, w1, h1, hf, hres⟩ | ⟨e, w1, e2, w2, h1, hf, h2, hres⟩ |
      ⟨e, w1, w2, w3, h1, hf, h2, h3, hres⟩ | ⟨e, w1, w2, e3, w3, h1, hf, h2, h3, hres⟩ <;>
    rw [hres]
  · have ha := runOps_tr_prefix env (persistOps sid uid m a) w; rw [h1] at ha
    exact ha
  · have ha := runOps_tr_prefix env (persistOps sid uid m a) w; rw [h1] at ha
    exact ha
  · have ha := runOps_tr_prefix env (persistOps sid uid m a) w; rw [h1] at ha
    obtain ⟨d1, hd1⟩ := ha
    have hb := runOp_tr_eq env w1 (.sessionInsert sid uid env.nowTitle); rw [h2] at hb
    obtain ⟨b2, hd2⟩ := hb
    exact ⟨d1 ++ [Ev.db (DbOp.sessionInsert sid uid env.nowTitle) b2], by rw [hd2, hd1]; simp⟩
  · have ha := runOps_tr_prefix env (persistOps sid uid m a) w; rw [h1] at ha
    obtain ⟨d1, hd1⟩ := ha
    have hb := runOp_tr_eq env w1 (.sessionInsert sid uid env.nowTitle); rw [h2] at hb
    obtain ⟨b2, hd2⟩ := hb
    have hc := runOps_tr_prefix env (persistOps sid uid m a) w2; rw [h3] at hc
    obtain ⟨d3, hd3⟩ := hc
    exact ⟨d1 ++ [Ev.db (DbOp.sessionInsert sid uid env.nowTitle) b2] ++ d3, by rw [hd3, hd2, hd1]; simp⟩
  · have ha := runOps_tr_prefix env (persistOps sid uid m a) w; rw [h1] at ha
    obtain ⟨d1, hd1⟩ := ha
    have hb := runOp_tr_eq env w1 (.sessionInsert sid uid env.nowTitle); rw [h2] at hb
    obtain ⟨b2, hd2⟩ := hb
    have hc := runOps_tr_prefix env (persistOps sid uid m a) w2; rw [h3] at hc
    obtain ⟨d3, hd3⟩ := hc
    exact ⟨d1 ++ [Ev.db (DbOp.sessionInsert sid uid env.nowTitle) b2] ++ d3, by rw [hd3, hd2, hd1]; simp⟩

/-- The two possible shapes of the title-update section of the handler. -/
theorem afterGen_eq (env : Env) (w : World) (u : AuthUser) (sid : String)
    (m : String) (out : GenOut) (fh : List FMsg) :
    afterGen env w (some u) (some sid) m out fh =
      (match persistTurn env w sid u.id m out.text with
       | (true, w1) =>
           if fh.isEmpty then
             match runOp env w1 (.titleUpdate sid env.nowTitle) with
             | (none, w2) => (Response.ok out.text out.model, w2)
             | (some _, w2) => (Response.serverError, w2)
           else (Response.ok out.text out.model, w1)
       | (false, w1) => (Response.ok out.text out.model, w1)) := rfl

/-- The post-generation section preserves the `question_usage` table. -/
theorem afterGen_usage (env : Env) (w : World) (uo : Option AuthUser) (sidO : Option String)
    (m : String) (out : GenOut) (fh : List FMsg) :
    (afterGen env w uo sidO m out fh).2.store.usage = w.store.usage := by
  rcases uo with _ | u
  · rfl
  rcases sidO with _ | sid
  · rfl
  rw [afterGen_eq]
  rcases hp : persistTurn env w sid u.id m out.text with ⟨succ, w1⟩
  have hu1 : w1.store.usage = w.store.usage := by
    have := persistTurn_usage env w sid u.id m out.text
    rw [hp] at this
    exact this
  cases succ with
  | false => exact hu1
  | true =>
    by_cases hfh : fh.isEmpty
    · simp only [hfh, if_true]
      rcases ht : runOp env w1 (.titleUpdate sid env.nowTitle) with ⟨rt, w2⟩
      have hu2 : w2.store.usage = w1.store.usage := by
        have := runOp_usage env w1 (.titleUpdate sid env.nowTitle) rfl
        rw [ht] at this
        exact this
      cases rt with
      | none => exact hu2.trans hu1
      | some e => exact hu2.trans hu1
    · simp only [hfh, if_false]
      exact hu1

/-- The post-generation section preserves the `profiles` table. -/
theorem afterGen_profiles (env : Env) (w : World) (uo : Option AuthUser) (sidO : Option String)
    (m : String) (out : GenOut) (fh : List FMsg) :
    (afterGen env w uo sidO m out fh).2.store.profiles = w.store.profiles := by
  rcases uo with _ | u
  · rfl
  rcases sidO with _ | sid
  · rfl
  rw [afterGen_eq]
  rcases hp : persistTurn env w sid u.id m out.text with ⟨succ, w1⟩
  have hu1 : w1.store.profiles = w.store.profiles := by
    have := persistTurn_profiles env w sid u.id m out.text
    rw [hp] at this
    exact this
  cases succ with
  | false => exact hu1
  | true =>
    by_cases hfh : fh.isEmpty
    · simp only [hfh, if_true]
      rcases ht : runOp env w1 (.titleUpdate sid env.nowTitle) with ⟨rt, w2⟩
      have hu2 : w2.store.profiles = w1.store.profiles := by
        have := runOp_profiles env w1 (.titleUpdate sid env.nowTitle)
        rw [ht] at this
        exact this
      cases rt with
      | none => exact hu2.trans hu1
      | some e => exact hu2.trans hu1
    · simp only [hfh, if_false]
      exact hu1

/-- The post-generation section adds no `question_usage` events. -/
theorem afterGen_usageCount (env : Env) (w : World) (uo : Option AuthUser) (sidO : Option String)
    (m : String) (out : GenOut) (fh : List FMsg) :
    ((afterGen env w uo sidO m out fh).2.tr).countP (evOf DbOp.isUsageOp) =
      w.tr.countP (evOf DbOp.isUsageOp) := by
  rcases uo with _ | u
  · rfl
  rcases sidO with _ | sid
  · rfl
  rw [afterGen_eq]
  rcases hp : persistTurn env w sid u.id m out.text with ⟨succ, w1⟩
  have hc1 : w1.tr.countP (evOf DbOp.isUsageOp) = w.tr.countP (evOf DbOp.isUsageOp) := by
    have := persistTurn_usageCount env w sid u.id m out.text
    rw [hp] at this
    exact this
  cases succ with
  | false => exact hc1
  | true =>
    by_cases hfh : fh.isEmpty
    · simp only [hfh, if_true]
      rcases ht : runOp env w1 (.titleUpdate sid env.nowTitle) with ⟨rt, w2⟩
      have hc2 : w2.tr.countP (evOf DbOp.isUsageOp) = w1.tr.countP (evOf DbOp.isUsageOp) := by
        have := countP_evOf_runOp DbOp.isUsageOp env w1 (.titleUpdate sid env.nowTitle)
        rw [ht] at this
        simpa using this
      cases rt with
      | none => exact hc2.trans hc1
      | some e => exact hc2.trans hc1
    · simp only [hfh, if_false]
      exact hc1

/-- The post-generation section only appends to the trace. -/
theorem afterGen_tr_prefix (env : Env) (w : World) (uo : Option AuthUser) (sidO : Option String)
    (m : String) (out : GenOut) (fh : List FMsg) :
    ∃ d, (afterGen env w uo sidO m out fh).2.tr = w.tr ++ d := by
  rcases uo with _ | u
  · exact ⟨[], (List.append_nil w.tr).symm⟩
  rcases sidO with _ | sid
  · exact ⟨[], (List.append_nil w.tr).symm⟩
  rw [afterGen_eq]
  rcases hp : persistTurn env w sid u.id m out.text with ⟨succ, w1⟩
  have hp1 : ∃ d, w1.tr = w.tr ++ d := by
    have := persistTurn_tr_prefix env w sid u.id m out.text
    rw [hp] at this
    exact this
  obtain ⟨d1, hd1⟩ := hp1
  cases succ with
  | false => exact ⟨d1, hd1⟩
  | true =>
    by_cases hfh : fh.isEmpty
    · simp only [hfh, if_true]
      rcases ht : runOp env w1 (.titleUpdate sid env.nowTitle) with ⟨rt, w2⟩
      have hb := runOp_tr_eq env w1 (.titleUpdate sid env.nowTitle); rw [ht] at hb
      obtain ⟨b2, hd2⟩ := hb
      cases rt with
      | none => exact ⟨d1 ++ [Ev.db (DbOp.titleUpdate sid env.nowTitle) b2], by rw [hd2, hd1]; simp⟩
      | some e => exact ⟨d1 ++ [Ev.db (DbOp.titleUpdate sid env.nowTitle) b2], by rw [hd2, hd1]; simp⟩
    · simp only [hfh, if_false]
      exact ⟨d1, hd1⟩

/-- The post-generation section never rejects with `LIMIT_REACHED`. -/
theorem afterGen_ne_limit (env : Env) (w : World) (uo : Option AuthUser) (sidO : Option String)
    (m : String) (out : GenOut) (fh : List FMsg) :
    (afterGen env w uo sidO m out fh).1 ≠ Response.limitReached := by
  rcases uo with _ | u
  · simp [afterGen]
  rcases sidO with _ | sid
  · simp [afterGen]
  rw [afterGen_eq]
  rcases hp : persistTurn env w sid u.id m out.text with ⟨succ, w1⟩
  cases succ with
  | false => simp
  | true =>
    by_cases hfh : fh.isEmpty
    · simp only [hfh, if_true]
      rcases ht : runOp env w1 (.titleUpdate sid env.nowTitle) with ⟨rt, w2⟩
      cases rt with
      | none => simp
      | some e => simp
    · simp only [hfh, if_false]
      simp

/-! ## Gate computation lemmas -/

/-- A privileged identity passes the gate with nothing read-modified or written. -/
theorem runGate_priv (env : Env) (store : Store) (u : AuthUser)
    (hP : hasUnlimitedAccess env.elev (allRoles (store.profiles u.id) u) = true) :
    runGate env (World.init store) u = .ok (World.init store) := by
  unfold runGate
  simp [World.init, hP]

/-- A non-privileged identity at or above the threshold is rejected untouched. -/
theorem runGate_denied (env : Env) (store : Store) (u : AuthUser)
    (hNU : hasUnlimitedAccess env.elev (allRoles (store.profiles u.id) u) = false)
    (hcnt : 5 ≤ (store.usage u.id).getD 0) :
    runGate env (World.init store) u = .error (Response.limitReached, World.init store) := by
  unfold runGate
  simp [World.init, hNU, hcnt]

/-- A non-privileged identity below the threshold with no usage row: the gate
inserts a fresh row at count 1 and lets the request proceed. -/
theorem runGate_insert (env : Env) (store : Store) (u : AuthUser)
    (hnf : NoFaults env)
    (hNU : hasUnlimitedAccess env.elev (allRoles (store.profiles u.id) u) = false)
    (hu : store.usage u.id = none) :
    runGate env (World.init store) u = .ok
      ⟨{ store with usage := fun x => if x = u.id then some 1 else store.usage x }, 1,
       [Ev.db (DbOp.usageInsert u.id) true]⟩ := by
  have hf0 : env.faults 0 = none := hnf 0
  unfold runGate runOp
  simp [World.init, hNU, hu, hf0, detOp]

/-- A non-privileged identity below the threshold with an existing usage row:
the gate updates the row to count+1 and lets the request proceed. -/
theorem runGate_update (env : Env) (store : Store) (u : AuthUser) (c : Nat)
    (hnf : NoFaults env)
    (hNU : hasUnlimitedAccess env.elev (allRoles (store.profiles u.id) u) = false)
    (hu : store.usage u.id = some c) (hc : c < 5) :
    runGate env (World.init store) u = .ok
      ⟨{ store with usage := fun x => if x = u.id then (store.usage x).map (fun _ => c + 1) else store.usage x }, 1,
       [Ev.db (DbOp.usageUpdate u.id (c + 1)) true]⟩ := by
  have hf0 : env.faults 0 = none := hnf 0
  unfold runGate runOp
  simp [World.init, hNU, hu, hf0, detOp, Nat.not_le.mpr hc]

/-! ## Handler-level step lemmas -/

/-- Unfolding of the handler once the gate has let the request through. -/
theorem handleMessage_gate_ok (env : Env) (store : Store) (u : AuthUser) (body : Body)
    (w1 : World) (hg : runGate env (World.init store) u = .ok w1) :
    handleMessage env store (some u) body =
      (match env.gen with
       | .error _ => (Response.serverError, ⟨w1.store, w1.k, w1.tr ++ [Ev.gen]⟩)
       | .ok out => afterGen env ⟨w1.store, w1.k, w1.tr ++ [Ev.gen]⟩ (some u) body.sessionId
           body.message out (trimLeadingModel (body.history.map fmtMsg))) := by
  unfold handleMessage
  simp only [hg]

/-- Unfolding of the handler when the gate rejects the request. -/
theorem handleMessage_denied (env : Env) (store : Store) (u : AuthUser) (body : Body)
    (hNU : hasUnlimitedAccess env.elev (allRoles (store.profiles u.id) u) = false)
    (hcnt : 5 ≤ (store.usage u.id).getD 0) :
    handleMessage env store (some u) body = (Response.limitReached, World.init store) := by
  unfold handleMessage
  simp only [runGate_denied env store u hNU hcnt]

/-- Membership in the trace survives the post-generation section. -/
theorem gen_mem_afterGen (env : Env) (w : World) (uo : Option AuthUser) (sidO : Option String)
    (m : String) (out : GenOut) (fh : List FMsg) (h : Ev.gen ∈ w.tr) :
    Ev.gen ∈ (afterGen env w uo sidO m out fh).2.tr := by
  obtain ⟨d, hd⟩ := afterGen_tr_prefix env w uo sidO m out fh
  rw [hd]
  exact List.mem_append_left _ h

/-- One request of a non-privileged identity below the threshold: the usage
counter ends at count+1, the `profiles` table is framed, the request is never
rejected, and the remote generation call is made. -/
theorem handleMessage_nonpriv (env : Env) (store : Store) (u : AuthUser) (body : Body)
    (hnf : NoFaults env)
    (hNU : hasUnlimitedAccess env.elev (allRoles (store.profiles u.id) u) = false)
    (hcnt : (store.usage u.id).getD 0 < 5) :
    (handleMessage env store (some u) body).2.store.usage u.id = some ((store.usage u.id).getD 0 + 1) ∧
    (handleMessage env store (some u) body).2.store.profiles = store.profiles ∧
    (handleMessage env store (some u) body).1 ≠ Response.limitReached ∧
    Ev.gen ∈ (handleMessage env store (some u) body).2.tr := by
  cases hu : store.usage u.id with
  | none =>
    have hg := runGate_insert env store u hnf hNU hu
    rw [handleMessage_gate_ok env store u body _ hg]
    cases hgen : env.gen with
    | error msg =>
      dsimp only
      refine ⟨by simp [hu], rfl, by simp, by simp⟩
    | ok out =>
      dsimp only
      refine ⟨?_, ?_, afterGen_ne_limit env _ _ _ _ _ _,
        gen_mem_afterGen env _ _ _ _ _ _ (by simp)⟩
      · rw [afterGen_usage]
        simp [hu]
      · rw [afterGen_profiles]
  | some c =>
    have hc : c < 5 := by rw [hu] at hcnt; simpa using hcnt
    have hg := runGate_update env store u c hnf hNU hu hc
    rw [handleMessage_gate_ok env store u body _ hg]
    cases hgen : env.gen with
    | error msg =>
      dsimp only
      refine ⟨by simp [hu], rfl, by simp, by simp⟩
    | ok out =>
      dsimp only
      refine ⟨?_, ?_, afterGen_ne_limit env _ _ _ _ _ _,
        gen_mem_afterGen env _ _ _ _ _ _ (by simp)⟩
      · rw [afterGen_usage]
        simp [hu]
      · rw [afterGen_profiles]

/-- One request of a privileged identity: the whole `question_usage` table is
untouched, the `profiles` table is framed, the request is never rejected, and
no usage-write event appears in the trace. -/
theorem handleMessage_priv (env : Env) (store : Store) (u : AuthUser) (body : Body)
    (hP : hasUnlimitedAccess env.elev (allRoles (store.profiles u.id) u) = true) :
    (handleMessage env store (some u) body).2.store.usage = store.usage ∧
    (handleMessage env store (some u) body).2.store.profiles = store.profiles ∧
    (handleMessage env store (some u) body).1 ≠ Response.limitReached ∧
    ((handleMessage env store (some u) body).2.tr).countP (evOf DbOp.isUsageOp) = 0 := by
  have hg := runGate_priv env store u hP
  rw [handleMessage_gate_ok env store u body _ hg]
  cases hgen : env.gen with
  | error msg =>
    dsimp only [World.init]
    exact ⟨rfl, rfl, by simp, by simp [evOf]⟩
  | ok out =>
    dsimp only [World.init]
    refine ⟨?_, ?_, afterGen_ne_limit env _ _ _ _ _ _, ?_⟩
    · rw [afterGen_usage]
    · rw [afterGen_profiles]
    · rw [afterGen_usageCount]
      simp [evOf]

/-! ## Claims C9, C4, C5 -/

/-- Claim C9: for a non-privileged identity below the threshold, the usage
counter increment happens before the remote generation call; if generation
fails, the response is the server error, the increment is not rolled back
(the final count is old count + 1), and the trace is exactly the usage write
followed by the generation call. -/
theorem spec_c9 (env : Env) (store : Store) (u : AuthUser) (body : Body) (emsg : String)
    (hnf : NoFaults env)
    (hNU : hasUnlimitedAccess env.elev (allRoles (store.profiles u.id) u) = false)
    (hcnt : (store.usage u.id).getD 0 < 5)
    (hgen : env.gen = .error emsg) :
    (handleMessage env store (some u) body).1 = Response.serverError ∧
    (handleMessage env store (some u) body).2.store.usage u.id = some ((store.usage u.id).getD 0 + 1) ∧
    (handleMessage env store (some u) body).2.tr =
      [Ev.db (if (store.usage u.id).isNone then DbOp.usageInsert u.id
              else DbOp.usageUpdate u.id ((store.usage u.id).getD 0 + 1)) true, Ev.gen] := by
  cases hu : store.usage u.id with
  | none =>
    have hg := runGate_insert env store u hnf hNU hu
    rw [handleMessage_gate_ok env store u body _ hg, hgen]
    dsimp only
    exact ⟨rfl, by simp [hu], by simp [hu]⟩
  | some c =>
    have hc : c < 5 := by rw [hu] at hcnt; simpa using hcnt
    have hg := runGate_update env store u c hnf hNU hu hc
    rw [handleMessage_gate_ok env store u body _ hg, hgen]
    dsimp only
    exact ⟨rfl, by simp [hu], by simp [hu]⟩

/-- Witness for C9: identity `u1` with no usage row, failing generation: the
response is the server error, the count ends at 1, and the trace is the usage
insert followed by the generation call. -/
theorem spec_c9_witness :
    (handleMessage genFailEnv baseStore (some plainUser) sampleBody).1 = Response.serverError ∧
    (handleMessage genFailEnv baseStore (some plainUser) sampleBody).2.store.usage "u1" = some 1 ∧
    (handleMessage genFailEnv baseStore (some plainUser) sampleBody).2.tr =
      [Ev.db (DbOp.usageInsert "u1") true, Ev.gen] := by
  have h := spec_c9 genFailEnv baseStore plainUser sampleBody "boom"
    (fun k => rfl) rfl (by decide) rfl
  simpa [baseStore, plainUser] using h

/-- Claim C4: for a non-privileged identity below the threshold the gate
performs the write and lets the request through: with no usage row a first
request ends at count 1; with an existing row at count n < 5 the row is
updated to n + 1; in both cases the request is not rejected and the remote
generation call is made; and starting from no row, after five sequential
requests the count is 5 and the sixth request is rejected with
`LIMIT_REACHED`. -/
theorem spec_c4 (env : Env) (store : Store) (u : AuthUser) (body : Body)
    (hnf : NoFaults env)
    (hNU : hasUnlimitedAccess env.elev (allRoles (store.profiles u.id) u) = false) :
    (store.usage u.id = none →
       (handleMessage env store (some u) body).2.store.usage u.id = some 1 ∧
       (handleMessage env store (some u) body).1 ≠ Response.limitReached ∧
       Ev.gen ∈ (handleMessage env store (some u) body).2.tr) ∧
    (∀ n, store.usage u.id = some n → n < 5 →
       (handleMessage env store (some u) body).2.store.usage u.id = some (n + 1) ∧
       (handleMessage env store (some u) body).1 ≠ Response.limitReached ∧
       Ev.gen ∈ (handleMessage env store (some u) body).2.tr) ∧
    (store.usage u.id = none →
       (iterStore env u body 5 store).usage u.id = some 5 ∧
       (handleMessage env (iterStore env u body 5 store) (some u) body).1 = Response.limitReached) := by
  have hstep : ∀ s : Store, s.profiles = store.profiles → ∀ c : Nat,
      s.usage u.id = some c → c < 5 →
      (handleMessage env s (some u) body).2.store.usage u.id = some (c + 1) ∧
      (handleMessage env s (some u) body).2.store.profiles = store.profiles := by
    intro s hsp c hsu hc
    have hNUs : hasUnlimitedAccess env.elev (allRoles (s.profiles u.id) u) = false := by
      rw [hsp]; exact hNU
    have h := handleMessage_nonpriv env s u body hnf hNUs (by rw [hsu]; simpa using hc)
    refine ⟨by rw [h.1, hsu]; simp, by rw [h.2.1, hsp]⟩
  refine ⟨?_, ?_, ?_⟩
  · intro hu
    have h := handleMessage_nonpriv env store u body hnf hNU (by rw [hu]; simp)
    exact ⟨by rw [h.1, hu]; simp, h.2.2.1, h.2.2.2⟩
  · intro n hu hn
    have h := handleMessage_nonpriv env store u body hnf hNU (by rw [hu]; simpa using hn)
    exact ⟨by rw [h.1, hu]; simp, h.2.2.1, h.2.2.2⟩
  · intro hu
    have h0 := handleMessage_nonpriv env store u body hnf hNU (by rw [hu]; simp)
    have e1 : iterStore env u body 1 store = (handleMessage env store (some u) body).2.store := rfl
    have e2 : iterStore env u body 2 store =
        (handleMessage env (iterStore env u body 1 store) (some u) body).2.store := rfl
    have e3 : iterStore env u body 3 store =
        (handleMessage env (iterStore env u body 2 store) (some u) body).2.store := rfl
    have e4 : iterStore env u body 4 store =
        (handleMessage env (iterStore env u body 3 store) (some u) body).2.store := rfl
    have e5 : iterStore env u body 5 store =
        (handleMessage env (iterStore env u body 4 store) (some u) body).2.store := rfl
    have g1 : (iterStore env u body 1 store).usage u.id = some 1 ∧
        (iterStore env u body 1 store).profiles = store.profiles := by
      rw [e1]; exact ⟨by rw [h0.1, hu]; simp, h0.2.1⟩
    have g2 : (iterStore env u body 2 store).usage u.id = some 2 ∧
        (iterStore env u body 2 store).profiles = store.profiles := by
      rw [e2]; exact hstep _ g1.2 1 g1.1 (by decide)
    have g3 : (iterStore env u body 3 store).usage u.id = some 3 ∧
        (iterStore env u body 3 store).profiles = store.profiles := by
      rw [e3]; exact hstep _ g2.2 2 g2.1 (by decide)
    have g4 : (iterStore env u body 4 store).usage u.id = some 4 ∧
        (iterStore env u body 4 store).profiles = store.profiles := by
      rw [e4]; exact hstep _ g3.2 3 g3.1 (by decide)
    have g5 : (iterStore env u body 5 store).usage u.id = some 5 ∧
        (iterStore env u body 5 store).profiles = store.profiles := by
      rw [e5]; exact hstep _ g4.2 4 g4.1 (by decide)
    have hNU5 : hasUnlimitedAccess env.elev
        (allRoles ((iterStore env u body 5 store).profiles u.id) u) = false := by
      rw [g5.2]; exact hNU
    have hc5 : 5 ≤ ((iterStore env u body 5 store).usage u.id).getD 0 := by
      rw [g5.1]; simp
    refine ⟨g5.1, ?_⟩
    rw [handleMessage_denied env _ u body hNU5 hc5]

/-- Witness for C4: identity `u1` with no usage row and no role signals in a
fault-free environment: the first request ends at count 1, the fifth ends at
count 5, and the sixth request is rejected. -/
theorem spec_c4_witness :
    (handleMessage noFaultEnv baseStore (some plainUser) sampleBody).2.store.usage "u1" = some 1 ∧
    (iterStore noFaultEnv plainUser sampleBody 5 baseStore).usage "u1" = some 5 ∧
    (handleMessage noFaultEnv (iterStore noFaultEnv plainUser sampleBody 5 baseStore)
      (some plainUser) sampleBody).1 = Response.limitReached := by
  have h := spec_c4 noFaultEnv baseStore plainUser sampleBody (fun k => rfl) rfl
  exact ⟨(h.1 rfl).1, (h.2.2 rfl).1, (h.2.2 rfl).2⟩

/-- Claim C5: a privileged identity (any one role source claiming elevated
access suffices) is never rejected, and across any number of sequential
requests the whole `question_usage` table is unchanged and no usage-write
event ever appears in a request trace. -/
theorem spec_c5 (env : Env) (store : Store) (u : AuthUser) (body : Body)
    (hPriv : ∃ r ∈ allRoles (store.profiles u.id) u, env.elev r = true) :
    ∀ n, (iterStore env u body n store).usage = store.usage ∧
      (handleMessage env (iterStore env u body n store) (some u) body).1 ≠ Response.limitReached ∧
      ((handleMessage env (iterStore env u body n store) (some u) body).2.tr).countP
        (evOf DbOp.isUsageOp) = 0 := by
  have hP : hasUnlimitedAccess env.elev (allRoles (store.profiles u.id) u) = true := by
    rcases hPriv with ⟨r, hr, he⟩
    exact List.any_eq_true.mpr ⟨r, hr, he⟩
  have inv : ∀ n, (iterStore env u body n store).usage = store.usage ∧
      (iterStore env u body n store).profiles = store.profiles := by
    intro n
    induction n with
    | zero => exact ⟨rfl, rfl⟩
    | succ n ih =>
      have hPn : hasUnlimitedAccess env.elev
          (allRoles ((iterStore env u body n store).profiles u.id) u) = true := by
        rw [ih.2]; exact hP
      have h := handleMessage_priv env (iterStore env u body n store) u body hPn
      exact ⟨h.1.trans ih.1, h.2.1.trans ih.2⟩
  intro n
  have hPn : hasUnlimitedAccess env.elev
      (allRoles ((iterStore env u body n store).profiles u.id) u) = true := by
    rw [(inv n).2]; exact hP
  have h := handleMessage_priv env (iterStore env u body n store) u body hPn
  exact ⟨(inv n).1, h.2.2.1, h.2.2.2⟩

/-- Witness for C5: an identity whose auth-user role is `admin`, over 100
sequential requests: the usage table is untouched, the 101st request is not
rejected, and its trace carries no usage write. -/
theorem spec_c5_witness :
    (iterStore noFaultEnv adminUser sampleBody 100 baseStore).usage = baseStore.usage ∧
    (handleMessage noFaultEnv (iterStore noFaultEnv adminUser sampleBody 100 baseStore)
      (some adminUser) sampleBody).1 ≠ Response.limitReached ∧
    ((handleMessage noFaultEnv (iterStore noFaultEnv adminUser sampleBody 100 baseStore)
      (some adminUser) sampleBody).2.tr).countP (evOf DbOp.isUsageOp) = 0 :=
  spec_c5 noFaultEnv baseStore adminUser sampleBody
    ⟨"admin", by simp [allRoles, adminUser, baseStore], rfl⟩ 100

/-! ## Deterministic persistence computations and claim C1 -/

/-- Fault-free persist-turn against an existing session: a single successful
pass of the three writes, no session creation. -/
theorem persistTurn_existing (env : Env) (w : World) (sid uid m a : String) (row : SessionRow)
    (hnf : NoFaults env) (hex : w.store.sessions sid = some row) :
    persistTurn env w sid uid m a =
      (true,
       ⟨{ w.store with messages :=
            w.store.messages ++ [⟨sid, uid, Role.user, m⟩, ⟨sid, uid, Role.model, a⟩] },
        w.k + 3,
        w.tr ++ [Ev.db (DbOp.msgInsert sid uid Role.user m) true,
                 Ev.db (DbOp.msgInsert sid uid Role.model a) true,
                 Ev.db (DbOp.sessionTouch sid) true]⟩) := by
  have hf : ∀ k, env.faults k = none := hnf
  simp [persistTurn, runOps, runOp, persistOps, hf, hex, detOp]

/-- Fault-free persist-turn against a missing session: the first insert fails
with the referential-integrity violation, the session is created just in time
with the caller-supplied id, owner identity and timestamp title, and the
single retry of the three writes succeeds. -/
theorem persistTurn_missing (env : Env) (w : World) (sid uid m a : String)
    (hnf : NoFaults env) (hmiss : w.store.sessions sid = none) :
    persistTurn env w sid uid m a =
      (true,
       ⟨{ w.store with
            sessions := fun x => if x = sid then some ⟨uid, env.nowTitle⟩ else w.store.sessions x,
            messages :=
              w.store.messages ++ [⟨sid, uid, Role.user, m⟩, ⟨sid, uid, Role.model, a⟩] },
        w.k + 5,
        w.tr ++ [Ev.db (DbOp.msgInsert sid uid Role.user m) false,
                 Ev.db (DbOp.sessionInsert sid uid env.nowTitle) true,
                 Ev.db (DbOp.msgInsert sid uid Role.user m) true,
                 Ev.db (DbOp.msgInsert sid uid Role.model a) true,
                 Ev.db (DbOp.sessionTouch sid) true]⟩) := by
  have hf : ∀ k, env.faults k = none := hnf
  simp [persistTurn, runOps, runOp, persistOps, hf, hmiss, detOp, isFkError, fkViolation]

/-- A write sequence adds at most as many matching events as it has matching
operations. -/
theorem countP_evOf_runOps_le (q : DbOp → Bool) (env : Env) (ops : List DbOp) : ∀ w : World,
    ((runOps env w ops).2.tr).countP (evOf q) ≤ w.tr.countP (evOf q) + ops.countP q := by
  induction ops with
  | nil => intro w; simp [runOps]
  | cons op rest ih =>
    intro w
    unfold runOps
    rcases hr : runOp env w op with ⟨res, w2⟩
    have hco := countP_evOf_runOp q env w op
    rw [hr] at hco
    dsimp only at hco
    have hcons : (op :: rest).countP q = rest.countP q + (if q op then 1 else 0) :=
      List.countP_cons _ _ _
    cases res with
    | none =>
      dsimp only
      have := ih w2
      omega
    | some e =>
      dsimp only
      omega

/-- The `persistMessages` write list holds no session creation. -/
theorem persistOps_countP_create (sid uid m a : String) :
    (persistOps sid uid m a).countP DbOp.isCreateOp = 0 := by
  simp [persistOps, List.countP_cons, DbOp.isCreateOp]

/-- The `persistMessages` write list holds exactly one user-message insert. -/
theorem persistOps_countP_user (sid uid m a : String) :
    (persistOps sid uid m a).countP DbOp.isUserMsgOp = 1 := by
  simp [persistOps, List.countP_cons, DbOp.isUserMsgOp]

/-- Claim C1: fault-free persist-turn against a missing session makes exactly
one session-creation call (caller-supplied id, owner identity, timestamp
title) followed by exactly one full retry of the three persistence writes,
after the initial insert failed with the referential-integrity violation that
names the `chat_sessions` table; against an existing session, zero
session-creation calls are made; and over every environment (so in
particular after a second failure following the just-in-time creation) at
most one session-creation call and at most two persist-turn passes occur —
the recovery never retries more than once. -/
theorem spec_c1 (env : Env) (store : Store) (sid uid m a : String) :
    (NoFaults env → store.sessions sid = none →
       (∃ w1, runOps env (World.init store) (persistOps sid uid m a) = (some fkViolation, w1)) ∧
       isFkError fkViolation = true ∧ fkViolation.detailsNameChatSessions = true ∧
       (persistTurn env (World.init store) sid uid m a).1 = true ∧
       (persistTurn env (World.init store) sid uid m a).2.tr =
         [Ev.db (DbOp.msgInsert sid uid Role.user m) false,
          Ev.db (DbOp.sessionInsert sid uid env.nowTitle) true,
          Ev.db (DbOp.msgInsert sid uid Role.user m) true,
          Ev.db (DbOp.msgInsert sid uid Role.model a) true,
          Ev.db (DbOp.sessionTouch sid) true] ∧
       (persistTurn env (World.init store) sid uid m a).2.store.sessions sid =
         some ⟨uid, env.nowTitle⟩) ∧
    (NoFaults env → ∀ row, store.sessions sid = some row →
       (persistTurn env (World.init store) sid uid m a).1 = true ∧
       (persistTurn env (World.init store) sid uid m a).2.tr =
         [Ev.db (DbOp.msgInsert sid uid Role.user m) true,
          Ev.db (DbOp.msgInsert sid uid Role.model a) true,
          Ev.db (DbOp.sessionTouch sid) true]) ∧
    (((persistTurn env (World.init store) sid uid m a).2.tr).countP (evOf DbOp.isCreateOp) ≤ 1 ∧
     ((persistTurn env (World.init store) sid uid m a).2.tr).countP (evOf DbOp.isUserMsgOp) ≤ 2) := by
  refine ⟨?_, ?_, ?_⟩
  · intro hnf hmiss
    have hm := persistTurn_missing env (World.init store) sid uid m a hnf hmiss
    refine ⟨⟨⟨store, 1, [Ev.db (DbOp.msgInsert sid uid Role.user m) false]⟩, ?_⟩,
            rfl, rfl, ?_, ?_, ?_⟩
    · have hf : ∀ k, env.faults k = none := hnf
      simp [runOps, runOp, persistOps, hf, hmiss, detOp, World.init]
    · rw [hm]
    · rw [hm]
      simp [World.init]
    · rw [hm]
      simp
  · intro hnf row hex
    have he := persistTurn_existing env (World.init store) sid uid m a row hnf hex
    refine ⟨by rw [he], by rw [he]; simp [World.init]⟩
  · have hle : ∀ wx : World,
        ((runOps env wx (persistOps sid uid m a)).2.tr).countP (evOf DbOp.isCreateOp) ≤
          wx.tr.countP (evOf DbOp.isCreateOp) ∧
        ((runOps env wx (persistOps sid uid m a)).2.tr).countP (evOf DbOp.isUserMsgOp) ≤
          wx.tr.countP (evOf DbOp.isUserMsgOp) + 1 := by
      intro wx
      have h1 := countP_evOf_runOps_le DbOp.isCreateOp env (persistOps sid uid m a) wx
      have h2 := countP_evOf_runOps_le DbOp.isUserMsgOp env (persistOps sid uid m a) wx
      rw [persistOps_countP_create] at h1
      rw [persistOps_countP_user] at h2
      omega
    have hcr := countP_evOf_runOp DbOp.isCreateOp env
    have hus := countP_evOf_runOp DbOp.isUserMsgOp env
    rcases persistTurn_rcases env (World.init store) sid uid m a with
        ⟨w1, h1, hres⟩ | ⟨e, w1, h1, hf, hres⟩ | ⟨e, w1, e2, w2, h1, hf, h2, hres⟩ |
        ⟨e, w1, w2, w3, h1, hf, h2, h3, hres⟩ | ⟨e, w1, w2, e3, w3, h1, hf, h2, h3, hres⟩ <;>
      rw [hres]
    · dsimp only
      have ha := hle (World.init store)
      rw [h1] at ha
      dsimp only [World.init] at ha
      simp only [List.countP_nil, Nat.zero_add, Nat.add_zero] at ha
      omega
    · dsimp only
      have ha := hle (World.init store)
      rw [h1] at ha
      dsimp only [World.init] at ha
      simp only [List.countP_nil, Nat.zero_add, Nat.add_zero] at ha
      omega
    · dsimp only
      have ha := hle (World.init store)
      rw [h1] at ha
      dsimp only [World.init] at ha
      simp only [List.countP_nil, Nat.zero_add, Nat.add_zero] at ha
      have hb1 := hcr w1 (.sessionInsert sid uid env.nowTitle)
      have hb2 := hus w1 (.sessionInsert sid uid env.nowTitle)
      rw [h2] at hb1 hb2
      dsimp only at hb1 hb2
      simp [DbOp.isCreateOp, DbOp.isUserMsgOp] at hb1 hb2
      omega
    · dsimp only
      have ha := hle (World.init store)
      rw [h1] at ha
      dsimp only [World.init] at ha
      simp only [List.countP_nil, Nat.zero_add, Nat.add_zero] at ha
      have hb1 := hcr w1 (.sessionInsert sid uid env.nowTitle)
      have hb2 := hus w1 (.sessionInsert sid uid env.nowTitle)
      rw [h2] at hb1 hb2
      dsimp only at hb1 hb2
      simp [DbOp.isCreateOp, DbOp.isUserMsgOp] at hb1 hb2
      have hc := hle w2
      rw [h3] at hc
      dsimp only at hc
      omega
    · dsimp only
      have ha := hle (World.init store)
      rw [h1] at ha
      dsimp only [World.init] at ha
      simp only [List.countP_nil, Nat.zero_add, Nat.add_zero] at ha
      have hb1 := hcr w1 (.sessionInsert sid uid env.nowTitle)
      have hb2 := hus w1 (.sessionInsert sid uid env.nowTitle)
      rw [h2] at hb1 hb2
      dsimp only at hb1 hb2
      simp [DbOp.isCreateOp, DbOp.isUserMsgOp] at hb1 hb2
      have hc := hle w2
      rw [h3] at hc
      dsimp only at hc
      omega

/-- Witness for C1: against the empty store (no session `s1`) the recovery
makes the creation call and one retry with the exact five-event trace;
against the store already holding `s1`, the three writes succeed directly and
no creation event appears. -/
theorem spec_c1_witness :
    (persistTurn noFaultEnv (World.init baseStore) "s1" "u1" "hi" "answer").1 = true ∧
    (persistTurn noFaultEnv (World.init baseStore) "s1" "u1" "hi" "answer").2.tr =
      [Ev.db (DbOp.msgInsert "s1" "u1" Role.user "hi") false,
       Ev.db (DbOp.sessionInsert "s1" "u1" "Nov 5, 10:00 AM") true,
       Ev.db (DbOp.msgInsert "s1" "u1" Role.user "hi") true,
       Ev.db (DbOp.msgInsert "s1" "u1" Role.model "answer") true,
       Ev.db (DbOp.sessionTouch "s1") true] ∧
    (persistTurn noFaultEnv (World.init storeWithSession) "s1" "u1" "hi" "answer").2.tr =
      [Ev.db (DbOp.msgInsert "s1" "u1" Role.user "hi") true,
       Ev.db (DbOp.msgInsert "s1" "u1" Role.model "answer") true,
       Ev.db (DbOp.sessionTouch "s1") true] := by
  have h1 := (spec_c1 noFaultEnv baseStore "s1" "u1" "hi" "answer").1 (fun k => rfl) rfl
  have h2 := (spec_c1 noFaultEnv storeWithSession "s1" "u1" "hi" "answer").2.1 (fun k => rfl)
    ⟨"u1", "old title"⟩ (by decide)
  exact ⟨h1.2.2.2.1, h1.2.2.2.2.1, h2.2⟩

/-! ## Write ordering (claim C8) -/

/-- The empty trace is balanced. -/
theorem balanced_nil : Balanced [] := by
  intro n
  simp [Balanced]

/-- A balanced trace has at least as many user-row writes as model-row writes. -/
theorem balanced_total {l : List Ev} (h : Balanced l) :
    l.countP Ev.isModelRowWrite ≤ l.countP Ev.isUserRowWrite := by
  have := h l.length
  simpa [List.take_length] using this

/-- Appending a non-model event keeps a trace balanced. -/
theorem balanced_append_nonmodel {l : List Ev} (h : Balanced l) (e : Ev)
    (hM : Ev.isModelRowWrite e = false) : Balanced (l ++ [e]) := by
  intro n
  rw [List.take_append_eq_append_take, List.countP_append, List.countP_append]
  have h1 := h n
  have h2 : (([e].take (n - l.length)).countP Ev.isModelRowWrite) = 0 := by
    cases hk : n - l.length with
    | zero => simp
    | succ k => simp [hM]
  omega

/-- Appending any event to a trace with a strict user-row surplus keeps it
balanced. -/
theorem balanced_append_surplus {l : List Ev} (h : Balanced l)
    (hs : l.countP Ev.isModelRowWrite < l.countP Ev.isUserRowWrite) (e : Ev) :
    Balanced (l ++ [e]) := by
  intro n
  rw [List.take_append_eq_append_take, List.countP_append, List.countP_append]
  by_cases hn : n ≤ l.length
  · have hz : n - l.length = 0 := Nat.sub_eq_zero_of_le hn
    rw [hz]
    simpa using h n
  · have hl : l.take n = l := List.take_of_length_le (Nat.le_of_lt (Nat.lt_of_not_le hn))
    rw [hl]
    have hM1 : (([e].take (n - l.length)).countP Ev.isModelRowWrite) ≤ 1 := by
      cases hk : n - l.length with
      | zero => simp
      | succ k =>
        simp only [List.take_succ_cons, List.take_nil, List.countP_cons, List.countP_nil]
        split <;> omega
    omega

/-- A successful write records a success event for its own operation. -/
theorem runOp_tr_ok {env : Env} {w w2 : World} {op : DbOp}
    (h : runOp env w op = (none, w2)) : w2.tr = w.tr ++ [Ev.db op true] := by
  unfold runOp at h
  rcases hf : env.faults w.k with _ | e
  · rw [hf] at h
    rcases hd : detOp w.store op with e2 | s2 <;> rw [hd] at h
    · simp at h
    · have h2 : ((none, ⟨s2, w.k + 1, w.tr ++ [Ev.db op true]⟩) : Option DbError × World) = (none, w2) := h
      injection h2 with h3 h4
      rw [← h4]
  · rw [hf] at h
    simp at h

/-- Running the three `persistMessages` writes keeps the trace balanced: the
model-message insert is only attempted after the user-message insert
succeeded. -/
theorem balanced_runOps_persist (env : Env) (w : World) (sid uid m a : String)
    (hw : Balanced w.tr) :
    Balanced ((runOps env w (persistOps sid uid m a)).2.tr) := by
  have hMu : ∀ b, Ev.isModelRowWrite (Ev.db (DbOp.msgInsert sid uid Role.user m) b) = false := by
    intro b
    cases b <;> rfl
  have hMt : ∀ b, Ev.isModelRowWrite (Ev.db (DbOp.sessionTouch sid) b) = false := by
    intro b
    cases b <;> rfl
  simp only [persistOps, runOps]
  rcases h1 : runOp env w (.msgInsert sid uid Role.user m) with ⟨r1, w1⟩
  obtain ⟨b1, hb1⟩ := by
    have := runOp_tr_eq env w (.msgInsert sid uid Role.user m)
    rw [h1] at this
    exact this
  have hbal1 : Balanced w1.tr := by
    rw [show w1.tr = w.tr ++ [Ev.db (DbOp.msgInsert sid uid Role.user m) b1] from hb1]
    exact balanced_append_nonmodel hw _ (hMu b1)
  cases r1 with
  | some e => exact hbal1
  | none =>
    dsimp only
    have hb1ok : w1.tr = w.tr ++ [Ev.db (DbOp.msgInsert sid uid Role.user m) true] :=
      runOp_tr_ok h1
    have hsurplus : w1.tr.countP Ev.isModelRowWrite < w1.tr.countP Ev.isUserRowWrite := by
      rw [hb1ok, List.countP_append, List.countP_append]
      have := balanced_total hw
      simp only [List.countP_cons, List.countP_nil]
      simp [Ev.isModelRowWrite, Ev.isUserRowWrite, DbOp.isModelMsgOp, DbOp.isUserMsgOp]
      omega
    rcases h2 : runOp env w1 (.msgInsert sid uid Role.model a) with ⟨r2, w2⟩
    obtain ⟨b2, hb2⟩ := by
      have := runOp_tr_eq env w1 (.msgInsert sid uid Role.model a)
      rw [h2] at this
      exact this
    have hbal2 : Balanced w2.tr := by
      rw [show w2.tr = w1.tr ++ [Ev.db (DbOp.msgInsert sid uid Role.model a) b2] from hb2]
      exact balanced_append_surplus hbal1 hsurplus _
    cases r2 with
    | some e => exact hbal2
    | none =>
      dsimp only
      rcases h3 : runOp env w2 (.sessionTouch sid) with ⟨r3, w3⟩
      obtain ⟨b3, hb3⟩ := by
        have := runOp_tr_eq env w2 (.sessionTouch sid)
        rw [h3] at this
        exact this
      have hbal3 : Balanced w3.tr := by
        rw [show w3.tr = w2.tr ++ [Ev.db (DbOp.sessionTouch sid) b3] from hb3]
        exact balanced_append_nonmodel hbal2 _ (hMt b3)
      cases r3 with
      | some e => exact hbal3
      | none => exact hbal3

/-- Claim C8: starting from any balanced trace, the whole persistence
recovery flow (initial pass, just-in-time session creation, retry) keeps the
trace balanced: in every prefix of the resulting trace the number of
successfully inserted model-message rows never exceeds the number of
successfully inserted user-message rows, so the model message of a turn is
never written before its user message — including on the retry. -/
theorem spec_c8 (env : Env) (w : World) (sid uid m a : String) (hw : Balanced w.tr) :
    Balanced ((persistTurn env w sid uid m a).2.tr) := by
  have hMc : ∀ b, Ev.isModelRowWrite (Ev.db (DbOp.sessionInsert sid uid env.nowTitle) b) = false := by
    intro b
    cases b <;> rfl
  rcases persistTurn_rcases env w sid uid m a with
      ⟨w1, h1, hres⟩ | ⟨e, w1, h1, hf, hres⟩ | ⟨e, w1, e2, w2, h1, hf, h2, hres⟩ |
      ⟨e, w1, w2, w3, h1, hf, h2, h3, hres⟩ | ⟨e, w1, w2, e3, w3, h1, hf, h2, h3, hres⟩ <;>
    rw [hres] <;> dsimp only
  · have := balanced_runOps_persist env w sid uid m a hw
    rw [h1] at this
    exact this
  · have := balanced_runOps_persist env w sid uid m a hw
    rw [h1] at this
    exact this
  · have hbal1 : Balanced w1.tr := by
      have := balanced_runOps_persist env w sid uid m a hw
      rw [h1] at this
      exact this
    obtain ⟨b2, hb2⟩ := by
      have := runOp_tr_eq env w1 (.sessionInsert sid uid env.nowTitle)
      rw [h2] at this
      exact this
    rw [show w2.tr = w1.tr ++ [Ev.db (DbOp.sessionInsert sid uid env.nowTitle) b2] from hb2]
    exact balanced_append_nonmodel hbal1 _ (hMc b2)
  · have hbal1 : Balanced w1.tr := by
      have := balanced_runOps_persist env w sid uid m a hw
      rw [h1] at this
      exact this
    have hbal2 : Balanced w2.tr := by
      rw [runOp_tr_ok h2]
      exact balanced_append_nonmodel hbal1 _ (hMc true)
    have := balanced_runOps_persist env w2 sid uid m a hbal2
    rw [h3] at this
    exact this
  · have hbal1 : Balanced w1.tr := by
      have := balanced_runOps_persist env w sid uid m a hw
      rw [h1] at this
      exact this
    have hbal2 : Balanced w2.tr := by
      rw [runOp_tr_ok h2]
      exact balanced_append_nonmodel hbal1 _ (hMc true)
    have := balanced_runOps_persist env w2 sid uid m a hbal2
    rw [h3] at this
    exact this

/-- Witness for C8: the recovery execution against the empty store (which
creates the session and retries) has a balanced trace. -/
theorem spec_c8_witness :
    Balanced ((persistTurn noFaultEnv (World.init baseStore) "s1" "u1" "hi" "answer").2.tr) :=
  spec_c8 noFaultEnv (World.init baseStore) "s1" "u1" "hi" "answer" balanced_nil

/-! ## Claims C2 and C7 -/

/-- Counterexample to C2 as stated: with a successful generation and a
successfully persisted turn, a failure of the write performed after the turn
is persisted (the first-turn timestamp-title update, awaited outside the
persistence try/catch) is not absorbed — the caller receives the server
error instead of the generated answer. -/
theorem spec_c2_cex :
    titleFailEnv.gen = Except.ok ⟨"answer", "model-a"⟩ ∧
    (persistTurn titleFailEnv ⟨storeWithSession, 0, [Ev.gen]⟩ "s1" "u1" "hi" "answer").1 = true ∧
    (handleMessage titleFailEnv storeWithSession (some adminUser) sessionBody).1 =
      Response.serverError ∧
    (handleMessage titleFailEnv storeWithSession (some adminUser) sessionBody).1 ≠
      Response.ok "answer" "model-a" := by
  refine ⟨rfl, by decide, by decide, by decide⟩

/-- Claim C2, amended: when generation succeeds, a failure of the
persist-turn operation itself (message inserts, session touch, just-in-time
creation, retry) is absorbed — the caller receives the generated answer, and
the caller-visible response is the same whether or not persist-turn
succeeds; but the separate first-turn timestamp-title update, issued after a
successful persist of a turn whose trimmed history is empty, lies outside
the persistence try/catch: only when it does not fail does the caller
receive the answer. -/
theorem spec_c2 (env : Env) (w : World) (u : AuthUser) (sid : String)
    (m : String) (out : GenOut) (fh : List FMsg) :
    ((persistTurn env w sid u.id m out.text).1 = false →
       afterGen env w (some u) (some sid) m out fh =
         (Response.ok out.text out.model, (persistTurn env w sid u.id m out.text).2)) ∧
    (fh ≠ [] →
       afterGen env w (some u) (some sid) m out fh =
         (Response.ok out.text out.model, (persistTurn env w sid u.id m out.text).2)) ∧
    ((persistTurn env w sid u.id m out.text).1 = true → fh = [] →
       (runOp env (persistTurn env w sid u.id m out.text).2 (.titleUpdate sid env.nowTitle)).1 = none →
       (afterGen env w (some u) (some sid) m out fh).1 = Response.ok out.text out.model) ∧
    (∀ uo sidO, uo = none ∨ sidO = none →
       afterGen env w uo sidO m out fh = (Response.ok out.text out.model, w)) := by
  refine ⟨?_, ?_, ?_, ?_⟩
  · intro hfail
    rw [afterGen_eq]
    rcases hp : persistTurn env w sid u.id m out.text with ⟨succ, w1⟩
    rw [hp] at hfail
    dsimp only at hfail ⊢
    subst hfail
    rfl
  · intro hne
    rw [afterGen_eq]
    rcases hp : persistTurn env w sid u.id m out.text with ⟨succ, w1⟩
    have hie : fh.isEmpty = false := by
      cases fh with
      | nil => exact absurd rfl hne
      | cons x xs => rfl
    cases succ with
    | false => rfl
    | true =>
      dsimp only
      rw [hie]
      rfl
  · intro hok hfh hrun
    rw [afterGen_eq]
    rcases hp : persistTurn env w sid u.id m out.text with ⟨succ, w1⟩
    rw [hp] at hok hrun
    dsimp only at hok hrun ⊢
    subst hok
    subst hfh
    rcases ht : runOp env w1 (.titleUpdate sid env.nowTitle) with ⟨rt, w2⟩
    rw [ht] at hrun
    dsimp only at hrun
    subst hrun
    simp [ht]
  · intro uo sidO h
    rcases uo with _ | u2
    · rfl
    rcases sidO with _ | sid2
    · rfl
    rcases h with h | h <;> simp at h

/-- Witness for C2 (amended): a non-referential-integrity failure of the very
first persistence write leaves the turn unpersisted, yet the response is the
generated answer; and with no user the response is the answer untouched. -/
theorem spec_c2_witness :
    afterGen persistFailEnv (World.init baseStore) (some plainUser) (some "s1") "hi"
        ⟨"answer", "model-a"⟩ [] =
      (Response.ok "answer" "model-a",
       (persistTurn persistFailEnv (World.init baseStore) "s1" "u1" "hi" "answer").2) ∧
    afterGen persistFailEnv (World.init baseStore) none (some "s1") "hi"
        ⟨"answer", "model-a"⟩ [] =
      (Response.ok "answer" "model-a", World.init baseStore) := by
  have h := spec_c2 persistFailEnv (World.init baseStore) plainUser "s1" "hi"
    ⟨"answer", "model-a"⟩ []
  exact ⟨h.1 (by decide), h.2.2.2 none (some "s1") (Or.inl rfl)⟩

/-- Counterexample to C7 as stated: a later turn whose incoming history is
non-empty but consists only of leading model turns (a welcome message) trims
to the empty history, so the handler overwrites the session's existing title
with the timestamp even though the incoming history was not empty. -/
theorem spec_c7_cex :
    welcomeBody.history ≠ [] ∧
    storeWithSession.sessions "s1" = some ⟨"u1", "old title"⟩ ∧
    (handleMessage noFaultEnv storeWithSession (some adminUser) welcomeBody).2.store.sessions "s1" =
      some ⟨"u1", "Nov 5, 10:00 AM"⟩ := by
  refine ⟨by decide, by decide, by decide⟩

/-- Claim C7, amended: under a fault-free store and an existing session, if
the *trimmed* history (incoming history with leading model turns removed) is
empty, the session's title is set to the formatted timestamp after the turn
persists; if the trimmed history is non-empty, the session keeps its
existing title.  (The code tests the trimmed history, not the incoming one,
so an all-model incoming history also receives the timestamp title.) -/
theorem spec_c7 (env : Env) (w : World) (u : AuthUser) (sid : String) (m : String)
    (out : GenOut) (fh : List FMsg) (row : SessionRow)
    (hnf : NoFaults env) (hex : w.store.sessions sid = some row) :
    (fh = [] →
       (afterGen env w (some u) (some sid) m out fh).2.store.sessions sid =
         some ⟨row.userId, env.nowTitle⟩) ∧
    (fh ≠ [] →
       (afterGen env w (some u) (some sid) m out fh).2.store.sessions sid = some row) := by
  have hf : ∀ k, env.faults k = none := hnf
  have hpt := persistTurn_existing env w sid u.id m out.text row hnf hex
  constructor
  · intro hfh
    subst hfh
    rw [afterGen_eq, hpt]
    simp [runOp, hf, detOp, hex]
  · intro hne
    have hie : fh.isEmpty = false := by
      cases fh with
      | nil => exact absurd rfl hne
      | cons x xs => rfl
    rw [afterGen_eq, hpt]
    simp [hie, hex]

/-- Witness for C7 (amended): with session `s1` present, an empty trimmed
history ends with the timestamp title, and a non-empty trimmed history keeps
the old title. -/
theorem spec_c7_witness :
    (afterGen noFaultEnv (World.init storeWithSession) (some plainUser) (some "s1") "hi"
        ⟨"answer", "model-a"⟩ []).2.store.sessions "s1" = some ⟨"u1", "Nov 5, 10:00 AM"⟩ ∧
    (afterGen noFaultEnv (World.init storeWithSession) (some plainUser) (some "s1") "hi"
        ⟨"answer", "model-a"⟩ [⟨Role.user, "q"⟩]).2.store.sessions "s1" =
      some ⟨"u1", "old title"⟩ := by
  refine ⟨(spec_c7 noFaultEnv (World.init storeWithSession) plainUser "s1" "hi"
      ⟨"answer", "model-a"⟩ [] ⟨"u1", "old title"⟩ (fun k => rfl) (by decide)).1 rfl, ?_⟩
  exact (spec_c7 noFaultEnv (World.init storeWithSession) plainUser "s1" "hi"
      ⟨"answer", "model-a"⟩ [⟨Role.user, "q"⟩] ⟨"u1", "old title"⟩ (fun k => rfl)
      (by decide)).2 (by simp)

end MDnexa
